import Mathlib

/-!
Shallow embedding of `constrainedrandom/internal/randvar.py` (class `RandVar`).

Modelling conventions:
* Values are `Int` (the library's domains in the sources are integer ranges,
  integer collections and integer-keyed weighted dictionaries).
* The random source (`random.Random` / the global `random` module) is an
  explicit stream of naturals `RandState`; every primitive draw consumes one
  stream element.  Theorems quantify over all streams.
* Python exceptions become the `Err` enumeration; exception message strings
  are elided (no claim depends on them).
* The third-party `constraint` package (`constraint.Problem` with a single
  variable) is modelled by its observable behaviour: `getSolutions` filters the
  domain by the conjunction of the registered unary predicates, `getSolution`
  reports whether at least one value survives.
* `while` loops bounded by `max_iterations` become fuel recursion with the
  fuel equal to the remaining allowed iterations, matching the Python
  counters exactly (the bound check happens before each validation).
-/

/-- One stream of random draws plus the current position.  `next` consumes one
draw.  This stands for the injected `random.Random` (or the global module). -/
structure RandState where
  stream : Nat → Nat
  pos : Nat

def RandState.next (s : RandState) : Nat × RandState :=
  (s.stream s.pos, ⟨s.stream, s.pos + 1⟩)

/-- Python exception kinds that the embedded code can raise.  Message strings
are elided.  `RandomizationError` is `utils.RandomizationError`; the others
are the built-in Python exceptions of the same name (`AssertionError` from the
`assert` statements in `__init__`, `IndexError` from `random.choice` on an
empty sequence, `ValueError` from `random.randrange` on an empty range). -/
inductive Err where
  | RandomizationError
  | AssertionError
  | IndexError
  | ValueError
  | TypeError
deriving DecidableEq

/-- A domain, after the normalisation done in `create_randomizer`: a `range`
(step 1, as used by the code), a `list`/`tuple` of values (non-dict iterables
are materialised to a tuple by the source, which is the identity here), or a
weighted-choice `dict` mapping values to relative weights. -/
inductive Domain where
  | range (start stop : Int)
  | listDom (xs : List Int)
  | dict (pairs : List (Int × Nat))

def Domain.isRange : Domain → Bool
  | .range _ _ => true
  | _ => false

def Domain.isListOrTuple : Domain → Bool
  | .listDom _ => true
  | _ => false

def Domain.isDict : Domain → Bool
  | .dict _ => true
  | _ => false

/-- Python `len` of the domain (`len(range(a, b))` is `max 0 (b - a)` for
step-1 ranges; `len` of a dict is its number of keys). -/
def Domain.size : Domain → Nat
  | .range a b => (b - a).toNat
  | .listDom xs => xs.length
  | .dict ps => ps.length

/-- The elements obtained by iterating the domain (`for x in self.domain`).
For a dict Python iterates the keys; that case is unreachable in the code
paths that iterate (they exclude dicts first). -/
def Domain.toList : Domain → List Int
  | .range a b => (List.range (b - a).toNat).map (fun i => a + i)
  | .listDom xs => xs
  | .dict ps => ps.map (fun p => p.1)

/-- A user generator function (`fn`), taking its `args` tuple and the random
source; modelled as total (an `fn` that raises is outside the claims). -/
def PyFn : Type := List Int → RandState → Int × RandState

/-- The compiled raw sampler returned by `create_randomizer`: one tagged
variant per closure the source can return. -/
inductive Randomizer where
  | fnR (f : PyFn) (args : List Int)
  | getrandbits (bits : Nat)
  | solutionPicker (solns : List Int)
  | randrange (start stop : Int)
  | choice (xs : List Int)
  | distR (pairs : List (Int × Nat))

def Randomizer.isPool : Randomizer → Bool
  | .solutionPicker _ => true
  | _ => false

/-- `constraint.Problem.getSolutions()` for a problem with one variable over
`domain` and the unary predicates `cons`: all domain values satisfying every
predicate, in domain order. -/
def getSolutions {α : Type} (domain : List α) (cons : List (α → Bool)) : List α :=
  domain.filter (fun v => cons.all (fun c => c v))

/-- `constraint.Problem.getSolution() is not None`: at least one value of the
domain satisfies every predicate. -/
def hasSolution {α : Type} (domain : List α) (cons : List (α → Bool)) : Bool :=
  !(getSolutions domain cons).isEmpty

/-- `random.choice(xs)`: raises `IndexError` on an empty sequence, otherwise
returns one element (here: indexed by the next stream draw). -/
def pyChoice {α : Type} (xs : List α) (st : RandState) : Except Err α × RandState :=
  if h : xs.length = 0 then
    (.error .IndexError, st)
  else
    let (n, st') := st.next
    (.ok (xs.get ⟨n % xs.length, Nat.mod_lt _ (Nat.pos_of_ne_zero h)⟩), st')

/-- Helper for the weighted draw: walk the pairs with a residue `r`. -/
def pickWeighted : List (Int × Nat) → Nat → Option Int
  | [], _ => none
  | (v, w) :: rest, r => if r < w then some v else pickWeighted rest (r - w)

/-- Modelled from the spec: the weighted-choice sampler `dist` lives in
`constrainedrandom/random.py`, which is not among the provided sources.  Per
the spec it "draws an entry with probability proportional to its weight";
here the next stream draw reduced modulo the total weight selects the entry
cumulatively.  No claim depends on this definition beyond totality. -/
def pyDist (pairs : List (Int × Nat)) (st : RandState) : Except Err Int × RandState :=
  let total := (pairs.map (fun p => p.2)).sum
  if total = 0 then
    (.error .ValueError, st)
  else
    let (n, st') := st.next
    match pickWeighted pairs (n % total) with
    | some v => (.ok v, st')
    | none => (.error .ValueError, st')

/-- Run the compiled raw sampler: one candidate per invocation. -/
def Randomizer.run : Randomizer → RandState → Except Err Int × RandState
  | .fnR f args, st =>
    let (x, st') := f args st
    (.ok x, st')
  | .getrandbits b, st =>
    let (n, st') := st.next
    (.ok (Int.ofNat (n % 2 ^ b)), st')
  | .solutionPicker solns, st => pyChoice solns st
  | .randrange a b, st =>
    if b ≤ a then (.error .ValueError, st)
    else
      let (n, st') := st.next
      (.ok (a + (n : Int) % (b - a)), st')
  | .choice xs, st => pyChoice xs st
  | .distR ps, st => pyDist ps st

/-- The raw sampler never raises (true of `getrandbits`, of nonempty
`choice`/`randrange` domains, and of total generator functions). -/
def Randomizer.neverFails (rz : Randomizer) : Prop :=
  ∀ st : RandState, (rz.run st).1.isOk = true

/-- The constructor inputs of `RandVar.__init__` (keyword arguments).
`_random` is represented by the `RandState` threaded through sampling.
A single (non-sequence) predicate passed for `constraints` or
`list_constraints` is normalised by the source to a one-element tuple;
here both are taken as lists directly. -/
structure RandCfg where
  name : String
  order : Int := 0
  domain? : Option Domain := none
  bits? : Option Nat := none
  fn? : Option PyFn := none
  args? : Option (List Int) := none
  constraints : List (Int → Bool) := []
  list_constraints : List (List Int → Bool) := []
  length : Nat
  max_iterations : Nat
  max_domain_size : Nat

/-- The constructed `RandVar`: the attributes stored by `__init__` after
`create_randomizer` has (possibly) rewritten `domain` and
`check_constraints` and compiled `randomizer`. -/
structure RandVar where
  name : String
  order : Int
  domain : Option Domain
  bits : Option Nat
  fn : Option PyFn
  args : Option (List Int)
  constraints : List (Int → Bool)
  list_constraints : List (List Int → Bool)
  length : Nat
  max_iterations : Nat
  max_domain_size : Nat
  check_constraints : Bool
  randomizer : Randomizer

/-- `len(self.constraints) > 0 or len(self.list_constraints) > 0`: the initial
value of `check_constraints` set in `__init__` (line 83). -/
def initialCheck (cfg : RandCfg) : Bool :=
  decide (0 < cfg.constraints.length) || decide (0 < cfg.list_constraints.length)

/-- `RandVar.create_randomizer` (lines 86-145).  Takes the attribute values at
entry; returns the compiled randomizer together with the possibly-updated
`domain` and `check_constraints` attributes.  The `TypeError` branch for a
non-iterable domain is represented by the unreachable `none` domain case (the
`Domain` type only has recognised shapes; materialising an iterable into a
tuple is the identity here). -/
def create_randomizer (domain? : Option Domain) (bits? : Option Nat)
    (fn? : Option PyFn) (args? : Option (List Int)) (cons : List (Int → Bool))
    (check : Bool) (mds : Nat) : Except Err (Randomizer × Option Domain × Bool) :=
  match fn? with
  | some f => .ok (.fnR f (args?.getD []), domain?, check)
  | none =>
    match bits? with
    | some b => .ok (.getrandbits b, some (.range 0 (2 ^ b : Nat)), check)
    | none =>
      match domain? with
      | none => .error .TypeError
      | some d =>
        if check && (d.isRange || d.isListOrTuple) && decide (d.size < mds) then
          .ok (.solutionPicker (getSolutions d.toList cons), some d, false)
        else
          match d with
          | .range a b => .ok (.randrange a b, some d, check)
          | .listDom xs => .ok (.choice xs, some d, check)
          | .dict ps => .ok (.distR ps, some d, check)

/-- `RandVar.__init__` (lines 48-84): the two `assert` statements followed by
attribute storage and `create_randomizer`.  The first `assert` condition is
the source's double boolean `!=` (exclusive or) chain, verbatim. -/
def RandVar.init (cfg : RandCfg) : Except Err RandVar :=
  if !((cfg.domain?.isSome != cfg.fn?.isSome) != cfg.bits?.isSome) then
    .error .AssertionError
  else if cfg.fn?.isNone && cfg.args?.isSome then
    .error .AssertionError
  else
    match create_randomizer cfg.domain? cfg.bits? cfg.fn? cfg.args? cfg.constraints
        (initialCheck cfg) cfg.max_domain_size with
    | .error e => .error e
    | .ok (rz, dom, chk) =>
      .ok { name := cfg.name, order := cfg.order, domain := dom, bits := cfg.bits?,
            fn := cfg.fn?, args := cfg.args?, constraints := cfg.constraints,
            list_constraints := cfg.list_constraints, length := cfg.length,
            max_iterations := cfg.max_iterations, max_domain_size := cfg.max_domain_size,
            check_constraints := chk, randomizer := rz }

/-- `RandVar.can_use_with_constraint` (lines 180-191): the variable has a
domain and it is not a dict. -/
def RandVar.can_use_with_constraint (v : RandVar) : Bool :=
  match v.domain with
  | none => false
  | some d => !d.isDict

/-- `len(self.domain)` as used at lines 124 and 270 (only evaluated when a
domain is present; the `none` case is unreachable behind
`can_use_with_constraint`). -/
def RandVar.domainLen (v : RandVar) : Nat :=
  match v.domain with
  | none => 0
  | some d => d.size

/-- Iterating `self.domain` (line 275). -/
def RandVar.domainList (v : RandVar) : List Int :=
  match v.domain with
  | none => []
  | some d => d.toList

/-- The `while not value_valid` loop of `randomize_once` (lines 225-237).
The fuel is `max_iterations - iterations`: with fuel `0` the bound check
`iterations == self.max_iterations` fires and raises, before validating the
current candidate; otherwise the current candidate is validated by the
constraint subsystem over the singleton domain `(value,)`, and on failure a
fresh candidate is drawn and the counter advances. -/
def ronceLoop (v : RandVar) (cons : List (Int → Bool)) :
    Nat → Int → RandState → Except Err Int × RandState
  | 0, _, st => (.error .RandomizationError, st)
  | fuel + 1, value, st =>
    if hasSolution [value] cons then
      (.ok value, st)
    else
      match v.randomizer.run st with
      | (.ok value', st') => ronceLoop v cons fuel value' st'
      | (.error e, st') => (.error e, st')

/-- `RandVar.randomize_once` (lines 212-238): draw one candidate; return it
unchecked when `check_constraints` is false, otherwise run the bounded
validation loop. -/
def randomize_once (v : RandVar) (cons : List (Int → Bool)) (check : Bool)
    (st : RandState) : Except Err Int × RandState :=
  match v.randomizer.run st with
  | (.error e, st') => (.error e, st')
  | (.ok value, st') =>
    if !check then (.ok value, st')
    else ronceLoop v cons v.max_iterations value st'

/-- `use_csp` (lines 268-270): whole-list constraints exist, the variable can
be used with the `constraint` package, and the domain is small enough. -/
def use_csp (v : RandVar) : Bool :=
  decide (0 < v.list_constraints.length) && v.can_use_with_constraint
    && decide (v.domainLen < v.max_domain_size)

/-- The `while not values_valid` retry loop of the non-CSP list branch
(lines 291-301): validate `values + [new_value]` against the whole-list
constraints; on failure redraw a scalar-constrained candidate and advance the
counter.  Fuel as in `ronceLoop`. -/
def listRetryLoop (v : RandVar) (cons : List (Int → Bool)) (check : Bool)
    (values : List Int) :
    Nat → Int → RandState → Except Err Int × RandState
  | 0, _, st => (.error .RandomizationError, st)
  | fuel + 1, nv, st =>
    if hasSolution [values ++ [nv]] v.list_constraints then
      (.ok nv, st)
    else
      match randomize_once v cons check st with
      | (.ok nv', st') => listRetryLoop v cons check values fuel nv' st'
      | (.error e, st') => (.error e, st')

/-- The `for i in range(self.length)` loop of `randomize` (lines 271-302),
with `i` the current position and `remaining` the positions still to fill.
In the CSP branch every domain value extends the list-so-far, the extensions
are filtered through the whole-list constraints by the constraint subsystem,
and one survivor is chosen (zero survivors raise immediately).  In the retry
branch a scalar-constrained candidate is drawn; position `0` (or an empty
whole-list constraint set) accepts it outright, later positions run the
bounded retry loop. -/
def listLoop (v : RandVar) (cons : List (Int → Bool)) (check : Bool)
    (useCsp : Bool) :
    Nat → Nat → List Int → RandState → Except Err (List Int) × RandState
  | _, 0, values, st => (.ok values, st)
  | i, remaining + 1, values, st =>
    if useCsp then
      let possible := v.domainList.map (fun x => values ++ [x])
      let solutions := getSolutions possible v.list_constraints
      if solutions.isEmpty then
        (.error .RandomizationError, st)
      else
        match pyChoice solutions st with
        | (.ok values', st') => listLoop v cons check useCsp (i + 1) remaining values' st'
        | (.error e, st') => (.error e, st')
    else
      match randomize_once v cons check st with
      | (.error e, st') => (.error e, st')
      | (.ok nv, st1) =>
        if v.list_constraints.length = 0 ∨ i = 0 then
          listLoop v cons check useCsp (i + 1) remaining (values ++ [nv]) st1
        else
          match listRetryLoop v cons check values v.max_iterations nv st1 with
          | (.ok nv', st2) => listLoop v cons check useCsp (i + 1) remaining (values ++ [nv']) st2
          | (.error e, st2) => (.error e, st2)

/-- The value returned by `randomize`: a scalar for `length == 0`, a list
otherwise. -/
inductive PyVal where
  | int (i : Int)
  | list (xs : List Int)
deriving DecidableEq

/-- `RandVar.randomize` (lines 240-303).  The variable is threaded through and
returned so that the absence of attribute mutation is part of the statement
surface: the method body contains no attribute assignment, and the embedding
returns the variable from every branch, error branches included. -/
def randomize (v : RandVar) (temp : Option (List (Int → Bool)))
    (st : RandState) : Except Err PyVal × RandVar × RandState :=
  let tempL := temp.getD []
  let hasTemp : Bool := decide (0 < tempL.length)
  let check := v.check_constraints || hasTemp
  let cons := v.constraints ++ (if hasTemp then tempL else [])
  if v.length = 0 then
    match randomize_once v cons check st with
    | (.ok x, st') => (.ok (.int x), v, st')
    | (.error e, st') => (.error e, v, st')
  else if v.length = 1 then
    match randomize_once v cons check st with
    | (.ok x, st') => (.ok (.list [x]), v, st')
    | (.error e, st') => (.error e, v, st')
  else
    match listLoop v cons check (use_csp v) 0 v.length [] st with
    | (.ok xs, st') => (.ok (.list xs), v, st')
    | (.error e, st') => (.error e, v, st')

/-! Concrete instances used by the claim counterexamples and witnesses. -/

/-- An empty variable name (names only key the solver dictionary and carry no
behaviour). -/
def noName : String := ⟨[]⟩

/-- A random stream that always draws `3`. -/
def st3 : RandState := ⟨fun _ => 3, 0⟩

/-- A random stream that always draws `0`. -/
def st0 : RandState := ⟨fun _ => 0, 0⟩

/-- A random stream that always draws `1`. -/
def st1 : RandState := ⟨fun _ => 1, 0⟩

/-- C1 failing input: domain `[0..4]`, per-value constraint `x != 3`, a
satisfiable whole-list constraint, `length` 2, domain small enough for the
incremental CSP list strategy. -/
def c1cfg : RandCfg :=
  { name := noName, domain? := some (.listDom [0, 1, 2, 3, 4]),
    constraints := [fun x => !(x == 3)],
    list_constraints := [fun _ => true],
    length := 2, max_iterations := 10, max_domain_size := 1000 }

/-- C2 counterexample input: a length-1 list variable whose only whole-list
constraint rejects every list. -/
def c2cfg : RandCfg :=
  { name := noName, domain? := some (.listDom [0]),
    list_constraints := [fun _ => false],
    length := 1, max_iterations := 10, max_domain_size := 10 }

/-- C2 witness variable: length-2 list, satisfiable whole-list constraint,
domain too large for the CSP strategy (`max_domain_size` 0), so the
retry-per-element strategy runs. -/
def c2wvar : RandVar :=
  { name := noName, order := 0, domain := some (.listDom [7]), bits := none,
    fn := none, args := none, constraints := [],
    list_constraints := [fun _ => true], length := 2, max_iterations := 3,
    max_domain_size := 0, check_constraints := false, randomizer := .choice [7] }

/-- C3 failing input: `domain`, `bits` and `fn` all supplied at once. -/
def c3cfg : RandCfg :=
  { name := noName, domain? := some (.listDom [0]), bits? := some 2,
    fn? := some (fun _ st => (5, st)),
    length := 0, max_iterations := 10, max_domain_size := 10 }

/-- C4 counterexample input: a 1-bit variable with a per-value constraint; the
implied domain `[0, 2)` has 2 elements, below `max_domain_size` 10. -/
def c4cfg : RandCfg :=
  { name := noName, bits? := some 1, constraints := [fun x => x == 0],
    length := 0, max_iterations := 10, max_domain_size := 10 }

/-- C4 witness input: explicit two-element domain with a per-value
constraint, small enough for the precomputed pool. -/
def c4wcfg : RandCfg :=
  { name := noName, domain? := some (.listDom [0, 1]),
    constraints := [fun x => x == 0],
    length := 0, max_iterations := 10, max_domain_size := 10 }

/-- The variable `RandVar.init c4wcfg` constructs. -/
def c4wvar : RandVar :=
  { name := noName, order := 0, domain := some (.listDom [0, 1]), bits := none,
    fn := none, args := none, constraints := [fun x => x == 0],
    list_constraints := [], length := 0, max_iterations := 10,
    max_domain_size := 10, check_constraints := false,
    randomizer := .solutionPicker [0] }

/-- C5 witness variable: 1-bit raw sampler, budget 3. -/
def c5var : RandVar :=
  { name := noName, order := 0, domain := some (.range 0 2), bits := some 1,
    fn := none, args := none, constraints := [fun x => x == 1],
    list_constraints := [], length := 0, max_iterations := 3,
    max_domain_size := 0, check_constraints := true,
    randomizer := .getrandbits 1 }

/-- The working constraint set of the C5 witness. -/
def c5cons : List (Int → Bool) := [fun x => x == 1]

/-- The state after the C5 witness draws once from `st1`. -/
def st1' : RandState := ⟨fun _ => 1, 1⟩

/-- C6 witness variable: length-2 list over domain `[0]` whose only
whole-list constraint rejects everything; the domain is CSP-eligible and
below `max_domain_size`. -/
def c6var : RandVar :=
  { name := noName, order := 0, domain := some (.listDom [0]), bits := none,
    fn := none, args := none, constraints := [],
    list_constraints := [fun _ => false], length := 2, max_iterations := 5,
    max_domain_size := 10, check_constraints := false,
    randomizer := .solutionPicker [0] }

/-- C7 witness variable: retry-per-element list variable with an
always-satisfied whole-list constraint. -/
def c7var : RandVar :=
  { name := noName, order := 0, domain := some (.listDom [5]), bits := none,
    fn := none, args := none, constraints := [],
    list_constraints := [fun _ => true], length := 2, max_iterations := 3,
    max_domain_size := 0, check_constraints := false, randomizer := .choice [5] }

/-- The state after the C7 witness draws once from `st0`. -/
def st0' : RandState := ⟨fun _ => 0, 1⟩

/-- C8 witness variable: unconstrained length-2 list variable. -/
def c8var : RandVar :=
  { name := noName, order := 0, domain := some (.listDom [7]), bits := none,
    fn := none, args := none, constraints := [], list_constraints := [],
    length := 2, max_iterations := 3, max_domain_size := 0,
    check_constraints := false, randomizer := .choice [7] }

/-- C9 witness input: a valid explicit domain, no `fn`, but an `args` tuple. -/
def c9cfg : RandCfg :=
  { name := noName, domain? := some (.listDom [0]), args? := some [],
    length := 0, max_iterations := 10, max_domain_size := 10 }

/-- C10 witness variable: zero retry budget, 1-bit raw sampler, a per-value
constraint satisfied by every candidate. -/
def c10var : RandVar :=
  { name := noName, order := 0, domain := some (.range 0 2), bits := some 1,
    fn := none, args := none, constraints := [fun _ => true],
    list_constraints := [], length := 0, max_iterations := 0,
    max_domain_size := 0, check_constraints := true,
    randomizer := .getrandbits 1 }

/-! Helper lemmas about the constraint subsystem and the sampling loops. -/

/-- Feasibility over a singleton domain is exactly satisfaction of every
predicate by that one value. -/
theorem hasSolution_singleton {α : Type} (x : α) (cons : List (α → Bool)) :
    hasSolution [x] cons = cons.all (fun c => c x) := by
  cases hc : cons.all (fun c => c x) <;>
    simp [hasSolution, getSolutions, hc]

/-- Every enumerated solution satisfies every predicate. -/
theorem getSolutions_all {α : Type} {dom : List α} {cons : List (α → Bool)}
    {a : α} (h : a ∈ getSolutions dom cons) : cons.all (fun c => c a) = true :=
  (List.mem_filter.mp h).2

/-- Every enumerated solution comes from the domain. -/
theorem getSolutions_sub {α : Type} {dom : List α} {cons : List (α → Bool)}
    {a : α} (h : a ∈ getSolutions dom cons) : a ∈ dom :=
  (List.mem_filter.mp h).1

/-- `random.choice` returns an element of its sequence. -/
theorem pyChoice_mem {α : Type} {xs : List α} {st st' : RandState} {a : α}
    (h : pyChoice xs st = (.ok a, st')) : a ∈ xs := by
  by_cases hl : xs.length = 0
  · simp [pyChoice, hl] at h
  · simp only [pyChoice, dif_neg hl] at h
    cases h
    exact List.get_mem _ _ _

/-- A value returned by the `randomize_once` validation loop satisfies every
constraint of the working set. -/
theorem ronceLoop_ok (v : RandVar) (cons : List (Int → Bool)) :
    ∀ fuel value st x st', ronceLoop v cons fuel value st = (.ok x, st') →
      cons.all (fun c => c x) = true := by
  intro fuel
  induction fuel with
  | zero => intro value st x st' h; simp [ronceLoop] at h
  | succ n ih =>
    intro value st x st' h
    rw [ronceLoop] at h
    by_cases hv : hasSolution [value] cons = true
    · rw [if_pos hv] at h
      cases h
      rw [← hasSolution_singleton]
      exact hv
    · rw [if_neg hv] at h
      rcases hr : v.randomizer.run st with ⟨res, st2⟩
      rw [hr] at h
      cases res with
      | ok value' => exact ih value' st2 x st' h
      | error e => cases h

/-- If the raw sampler never raises, the `randomize_once` validation loop
either succeeds or raises the randomization-exhausted error. -/
theorem ronceLoop_res (v : RandVar) (cons : List (Int → Bool))
    (hnf : v.randomizer.neverFails) :
    ∀ fuel value st, (ronceLoop v cons fuel value st).1.isOk = true
      ∨ (ronceLoop v cons fuel value st).1 = .error .RandomizationError := by
  intro fuel
  induction fuel with
  | zero => intro value st; right; simp [ronceLoop]
  | succ n ih =>
    intro value st
    rw [ronceLoop]
    by_cases hv : hasSolution [value] cons = true
    · rw [if_pos hv]; left; rfl
    · rw [if_neg hv]
      rcases hr : v.randomizer.run st with ⟨res, st2⟩
      cases res with
      | ok value' => exact ih value' st2
      | error e =>
        have := hnf st
        rw [hr] at this
        simp [Except.isOk, Except.toBool] at this

/-- A value returned by the retry loop of the retry-per-element list strategy
satisfies every whole-list constraint on the list-so-far plus that value. -/
theorem listRetryLoop_ok (v : RandVar) (cons : List (Int → Bool)) (check : Bool)
    (values : List Int) :
    ∀ fuel nv st nv' st',
      listRetryLoop v cons check values fuel nv st = (.ok nv', st') →
      v.list_constraints.all (fun c => c (values ++ [nv'])) = true := by
  intro fuel
  induction fuel with
  | zero => intro nv st nv' st' h; simp [listRetryLoop] at h
  | succ n ih =>
    intro nv st nv' st' h
    rw [listRetryLoop] at h
    by_cases hv : hasSolution [values ++ [nv]] v.list_constraints = true
    · rw [if_pos hv] at h
      cases h
      rw [← hasSolution_singleton]
      exact hv
    · rw [if_neg hv] at h
      rcases hr : randomize_once v cons check st with ⟨res, st2⟩
      rw [hr] at h
      cases res with
      | ok nv2 => exact ih nv2 st2 nv' st' h
      | error e => cases h

/-- Any list produced by the element loop whose last position index is at
least 1 satisfies every whole-list constraint: the final step either chooses
among CSP solutions filtered by those constraints or exits the retry loop
with a validated full list. -/
theorem listLoop_all (v : RandVar) (cons : List (Int → Bool)) (check : Bool)
    (csp : Bool) :
    ∀ rem i values st xs st', 1 ≤ i + rem →
      listLoop v cons check csp i (rem + 1) values st = (.ok xs, st') →
      v.list_constraints.all (fun c => c xs) = true := by
  intro rem
  induction rem with
  | zero =>
    intro i values st xs st' hi h
    simp only [listLoop] at h
    cases csp with
    | true =>
      rw [if_pos rfl] at h
      by_cases hS : (getSolutions (v.domainList.map fun x => values ++ [x])
          v.list_constraints).isEmpty = true
      · rw [if_pos hS] at h
        cases h
      · rw [if_neg hS] at h
        rcases hc : pyChoice (getSolutions (v.domainList.map fun x => values ++ [x])
            v.list_constraints) st with ⟨res, st2⟩
        simp only [hc] at h
        cases res with
        | ok values2 =>
          dsimp only at h
          cases h
          exact getSolutions_all (pyChoice_mem hc)
        | error e => cases h
    | false =>
      rw [if_neg (by simp)] at h
      rcases hr : randomize_once v cons check st with ⟨res, st2⟩
      simp only [hr] at h
      cases res with
      | error e => cases h
      | ok nv =>
        dsimp only at h
        by_cases hfb : v.list_constraints.length = 0 ∨ i = 0
        · rcases hfb with hnil | hi0
          · have hx : v.list_constraints = [] := List.eq_nil_of_length_eq_zero hnil
            simp [hx]
          · omega
        · rw [if_neg hfb] at h
          rcases hrl : listRetryLoop v cons check values v.max_iterations nv st2
              with ⟨res2, st3⟩
          simp only [hrl] at h
          cases res2 with
          | ok nv' =>
            dsimp only at h
            cases h
            exact listRetryLoop_ok v cons check values _ _ _ _ _ hrl
          | error e => cases h
  | succ r ih =>
    intro i values st xs st' _ h
    rw [listLoop] at h
    cases csp with
    | true =>
      rw [if_pos rfl] at h
      by_cases hS : (getSolutions (v.domainList.map fun x => values ++ [x])
          v.list_constraints).isEmpty = true
      · rw [if_pos hS] at h
        cases h
      · rw [if_neg hS] at h
        rcases hc : pyChoice (getSolutions (v.domainList.map fun x => values ++ [x])
            v.list_constraints) st with ⟨res, st2⟩
        simp only [hc] at h
        cases res with
        | ok values2 =>
          dsimp only at h
          exact ih (i + 1) values2 st2 xs st' (by omega) h
        | error e => cases h
    | false =>
      rw [if_neg (by simp)] at h
      rcases hr : randomize_once v cons check st with ⟨res, st2⟩
      simp only [hr] at h
      cases res with
      | error e => cases h
      | ok nv =>
        dsimp only at h
        by_cases hfb : v.list_constraints.length = 0 ∨ i = 0
        · rw [if_pos hfb] at h
          exact ih (i + 1) (values ++ [nv]) st2 xs st' (by omega) h
        · rw [if_neg hfb] at h
          rcases hrl : listRetryLoop v cons check values v.max_iterations nv st2
              with ⟨res2, st3⟩
          simp only [hrl] at h
          cases res2 with
          | ok nv' =>
            dsimp only at h
            exact ih (i + 1) (values ++ [nv']) st3 xs st' (by omega) h
          | error e => cases h

/-- The element loop extends the list-so-far by exactly one element per
remaining position: a successful run returns a complete list, never a
partial one. -/
theorem listLoop_len (v : RandVar) (cons : List (Int → Bool)) (check : Bool)
    (csp : Bool) :
    ∀ rem i values st xs st',
      listLoop v cons check csp i rem values st = (.ok xs, st') →
      xs.length = values.length + rem := by
  intro rem
  induction rem with
  | zero =>
    intro i values st xs st' h
    simp only [listLoop] at h
    cases h
    rfl
  | succ r ih =>
    intro i values st xs st' h
    rw [listLoop] at h
    cases csp with
    | true =>
      rw [if_pos rfl] at h
      by_cases hS : (getSolutions (v.domainList.map fun x => values ++ [x])
          v.list_constraints).isEmpty = true
      · rw [if_pos hS] at h
        cases h
      · rw [if_neg hS] at h
        rcases hc : pyChoice (getSolutions (v.domainList.map fun x => values ++ [x])
            v.list_constraints) st with ⟨res, st2⟩
        simp only [hc] at h
        cases res with
        | ok values2 =>
          dsimp only at h
          have hmem : values2 ∈ v.domainList.map fun x => values ++ [x] :=
            getSolutions_sub (pyChoice_mem hc)
          rcases List.mem_map.mp hmem with ⟨x, _, hx⟩
          have hlen2 : values2.length = values.length + 1 := by
            rw [← hx]; simp
          have := ih (i + 1) values2 st2 xs st' h
          omega
        | error e => cases h
    | false =>
      rw [if_neg (by simp)] at h
      rcases hr : randomize_once v cons check st with ⟨res, st2⟩
      simp only [hr] at h
      cases res with
      | error e => cases h
      | ok nv =>
        dsimp only at h
        by_cases hfb : v.list_constraints.length = 0 ∨ i = 0
        · rw [if_pos hfb] at h
          have := ih (i + 1) (values ++ [nv]) st2 xs st' h
          simp at this
          omega
        · rw [if_neg hfb] at h
          rcases hrl : listRetryLoop v cons check values v.max_iterations nv st2
              with ⟨res2, st3⟩
          simp only [hrl] at h
          cases res2 with
          | ok nv' =>
            dsimp only at h
            have := ih (i + 1) (values ++ [nv']) st3 xs st' h
            simp at this
            omega
          | error e => cases h

/-! Claim theorems. -/

/-- C1: the claim states that every non-error sample satisfies every declared
per-value constraint and every transient constraint.  The code violates this
on the incremental CSP list path (lines 271-285), which filters candidate
lists only through `list_constraints` and never consults `constraints` (nor
any temporary constraints): for the variable of `c1cfg` (domain `[0..4]`,
per-value constraint `x != 3`, satisfiable whole-list constraint, length 2)
the sampling call returns `[3, 3]` without error, violating the declared
per-value constraint, contradicting the code's own docstring ("Each of these
apply only to the individual values in the list"). -/
theorem c1_csp_list_path_returns_value_violating_scalar_constraints :
    (RandVar.init c1cfg).toOption.map
      (fun v => ((randomize v none st3).1, v.constraints.all (fun c => c 3)))
    = some (.ok (.list [3, 3]), false) := rfl

/-- C2 counterexample: for a length-1 list variable the whole-list
constraints are never evaluated (lines 261-262 wrap one scalar sample),
so a list violating its whole-list constraint is returned without error. -/
theorem c2_length_one_list_skips_whole_list_constraints :
    (RandVar.init c2cfg).toOption.map
      (fun v => ((randomize v none st0).1, v.list_constraints.all (fun c => c [0])))
    = some (.ok (.list [0]), false) := rfl

/-- C2 (amended): for every list variable of length greater than 1, every
list returned by a non-error sampling call satisfies every whole-list
constraint evaluated against the complete returned list (the final step of
either list strategy validates the full list); for length exactly 1 the
whole-list constraints are not applied. -/
theorem c2_longer_lists_satisfy_whole_list_constraints
    (v : RandVar) (temp : Option (List (Int → Bool))) (st : RandState)
    (xs : List Int) (h2 : 2 ≤ v.length)
    (hok : (randomize v temp st).1 = .ok (.list xs)) :
    v.list_constraints.all (fun c => c xs) = true := by
  simp only [randomize] at hok
  rw [if_neg (by omega), if_neg (by omega)] at hok
  split at hok
  · rename_i xs0 st2 heq
    have hxs : xs0 = xs := by simpa using hok
    obtain ⟨r, hrlen⟩ : ∃ r, v.length = r + 1 := ⟨v.length - 1, by omega⟩
    rw [hrlen] at heq
    rw [← hxs]
    exact listLoop_all v _ _ _ r 0 [] st xs0 st2 (by omega) heq
  · simp at hok

/-- C2 witness: the length-2 variable `c2wvar` on the all-zero stream returns
`[7, 7]`, which satisfies its whole-list constraint. -/
theorem c2_longer_lists_witness :
    c2wvar.list_constraints.all (fun c => c [7, 7]) = true :=
  c2_longer_lists_satisfy_whole_list_constraints c2wvar none st0 [7, 7]
    (by decide) rfl

/-- C3: the claim states construction raises for every combination of
{domain, bits, fn} other than exactly one supplied, including all three
supplied.  The `assert` at line 69 chains two boolean `!=` (exclusive or)
tests, which pass when an odd number of the three is supplied; with all
three supplied construction therefore succeeds, contradicting the assert's
own message ("Must specify exactly one of fn, domain or bits") and the
docstring's mutual-exclusivity requirement. -/
theorem c3_all_three_specified_construction_succeeds :
    (RandVar.init c3cfg).isOk = true := rfl

/-- C4 counterexample: the claim states the precomputed-pool shortcut is
taken when per-value constraints exist and the domain - including the range
`[0, 2^bits)` implied by a bit-width - is enumerable and small.  For
`c4cfg` (`bits` 1, one per-value constraint, `max_domain_size` 10) the code
returns the `getrandbits` sampler at line 106 before ever considering the
shortcut: the randomizer is not a pool and constraint checking stays on. -/
theorem c4_bits_with_constraints_not_pooled :
    (RandVar.init c4cfg).toOption.map
      (fun v => (v.randomizer.isPool, v.check_constraints)) = some (false, true) := rfl

/-- C4 (amended): the precomputed-pool compilation shortcut is taken exactly
when at least one per-value or whole-list constraint exists (the code tests
`check_constraints`, which either kind switches on), the domain was supplied
explicitly as a range or list/tuple - not via a bit-width, whose
`getrandbits` sampler is returned before the shortcut is considered, and not
a dict - and its cardinality is below `max_domain_size`; when taken, the raw
sampler becomes a uniform choice among the solutions of the per-value
constraints over the domain, and constraint checking is disabled for
subsequent scalar sampling. -/
theorem c4_pool_shortcut_condition (cfg : RandCfg) (v : RandVar)
    (h : RandVar.init cfg = .ok v) :
    (v.randomizer.isPool = true ↔
      ((cfg.constraints ≠ [] ∨ cfg.list_constraints ≠ []) ∧ cfg.fn? = none
        ∧ cfg.bits? = none
        ∧ cfg.domain?.map
            (fun d => (d.isRange || d.isListOrTuple) && decide (d.size < cfg.max_domain_size))
          = some true))
    ∧ (∀ s, v.randomizer = .solutionPicker s →
        v.check_constraints = false
          ∧ cfg.domain?.map (fun d => getSolutions d.toList cfg.constraints) = some s) := by
  cases hfn : cfg.fn? with
  | some f =>
    simp only [RandVar.init, create_randomizer, hfn] at h
    split at h
    · simp at h
    · split at h
      · simp at h
      · cases h
        constructor
        · simp [Randomizer.isPool, hfn]
        · intro s hs
          simp [Randomizer.isPool] at hs
  | none =>
    cases hbits : cfg.bits? with
    | some b =>
      simp only [RandVar.init, create_randomizer, hfn, hbits] at h
      split at h
      · simp at h
      · split at h
        · simp at h
        · cases h
          constructor
          · simp [Randomizer.isPool, hbits]
          · intro s hs
            simp at hs
    | none =>
      cases hdom : cfg.domain? with
      | none =>
        simp [RandVar.init, hfn, hbits, hdom] at h
      | some d =>
        cases hargs : cfg.args? with
        | some a =>
          simp [RandVar.init, hfn, hbits, hdom, hargs] at h
        | none =>
          simp only [RandVar.init, create_randomizer, hfn, hbits, hdom, hargs] at h
          rw [if_neg (by simp)] at h
          rw [if_neg (by simp)] at h
          by_cases hc : (initialCheck cfg && (d.isRange || d.isListOrTuple)
              && decide (d.size < cfg.max_domain_size)) = true
          · rw [if_pos hc] at h
            dsimp only at h
            cases h
            have hc2 := hc
            simp only [initialCheck, Bool.and_eq_true, Bool.or_eq_true,
              decide_eq_true_eq] at hc2
            constructor
            · refine iff_of_true rfl ⟨?_, rfl, rfl, ?_⟩
              · rcases hc2.1.1 with hl | hl
                · exact Or.inl (List.ne_nil_of_length_pos hl)
                · exact Or.inr (List.ne_nil_of_length_pos hl)
              · simp only [Option.map_some', Option.some.injEq]
                rcases hc2.1.2 with hs | hs <;> simp [hs, hc2.2]
            · intro s hs
              cases hs
              exact ⟨rfl, by simp⟩
          · rw [if_neg hc] at h
            have hrhs : ¬((cfg.constraints ≠ [] ∨ cfg.list_constraints ≠ [])
                ∧ (none : Option PyFn) = none ∧ (none : Option Nat) = none
                ∧ (some d).map (fun d => (d.isRange || d.isListOrTuple)
                    && decide (d.size < cfg.max_domain_size)) = some true) := by
              rintro ⟨hne, -, -, hmap⟩
              apply hc
              simp only [Option.map_some', Option.some.injEq, Bool.and_eq_true, Bool.or_eq_true,
                decide_eq_true_eq] at hmap
              simp only [initialCheck, Bool.and_eq_true, Bool.or_eq_true,
                decide_eq_true_eq]
              refine ⟨⟨?_, hmap.1⟩, hmap.2⟩
              rcases hne with hl | hl
              · exact Or.inl (List.length_pos.mpr hl)
              · exact Or.inr (List.length_pos.mpr hl)
            cases d with
            | range a b =>
              dsimp only at h
              cases h
              exact ⟨iff_of_false (by simp [Randomizer.isPool]) hrhs,
                fun s hs => by simp at hs⟩
            | listDom xs =>
              dsimp only at h
              cases h
              exact ⟨iff_of_false (by simp [Randomizer.isPool]) hrhs,
                fun s hs => by simp at hs⟩
            | dict ps =>
              dsimp only at h
              cases h
              exact ⟨iff_of_false (by simp [Randomizer.isPool]) hrhs,
                fun s hs => by simp at hs⟩

/-- C4 witness: for `c4wcfg` (explicit two-element domain, one per-value
constraint, small `max_domain_size`) construction yields `c4wvar`, whose
sampler is the precomputed pool `[0]` with checking disabled. -/
theorem c4_pool_shortcut_witness :
    (c4wvar.randomizer.isPool = true ↔
      ((c4wcfg.constraints ≠ [] ∨ c4wcfg.list_constraints ≠ []) ∧ c4wcfg.fn? = none
        ∧ c4wcfg.bits? = none
        ∧ c4wcfg.domain?.map
            (fun d => (d.isRange || d.isListOrTuple) && decide (d.size < c4wcfg.max_domain_size))
          = some true))
    ∧ (c4wvar.check_constraints = false
        ∧ c4wcfg.domain?.map (fun d => getSolutions d.toList c4wcfg.constraints) = some [0]) :=
  ⟨(c4_pool_shortcut_condition c4wcfg c4wvar rfl).1,
   (c4_pool_shortcut_condition c4wcfg c4wvar rfl).2 [0] rfl⟩

/-- C5: every scalar sampling call with constraint checking required
terminates with either a candidate that passed validation against the whole
working constraint set, or (provided the raw sampler itself does not raise)
the randomization-exhausted error once the `max_iterations` budget runs out;
a value that failed validation is never returned.  Termination is inherent:
the embedded loop recurses on the remaining iteration budget. -/
theorem c5_scalar_sampling_valid_or_exhausted (v : RandVar)
    (cons : List (Int → Bool)) (st : RandState) :
    (∀ x st', randomize_once v cons true st = (.ok x, st') →
      cons.all (fun c => c x) = true)
    ∧ (v.randomizer.neverFails →
        (randomize_once v cons true st).1.isOk = true
          ∨ (randomize_once v cons true st).1 = .error .RandomizationError) := by
  constructor
  · intro x st' h
    simp only [randomize_once] at h
    rcases hr : v.randomizer.run st with ⟨res, st2⟩
    simp only [hr] at h
    cases res with
    | error e => simp at h
    | ok value =>
      dsimp only at h
      exact ronceLoop_ok v cons _ _ _ _ _ h
  · intro hnf
    simp only [randomize_once]
    rcases hr : v.randomizer.run st with ⟨res, st2⟩
    cases res with
    | error e =>
      have := hnf st
      rw [hr] at this
      simp [Except.isOk, Except.toBool] at this
    | ok value =>
      simp only [hr]
      exact ronceLoop_res v cons hnf v.max_iterations value st2

/-- C5 witness: `c5var` (1-bit sampler that never fails, budget 3) on the
all-ones stream returns `1`, which satisfies the constraint `x == 1`. -/
theorem c5_scalar_sampling_witness :
    c5cons.all (fun c => c 1) = true
    ∧ ((randomize_once c5var c5cons true st1).1.isOk = true
        ∨ (randomize_once c5var c5cons true st1).1 = .error .RandomizationError) :=
  ⟨(c5_scalar_sampling_valid_or_exhausted c5var c5cons st1).1 1 st1' rfl,
   (c5_scalar_sampling_valid_or_exhausted c5var c5cons st1).2 (fun _ => rfl)⟩

/-- C6: the incremental exhaustive (CSP) list strategy is selected exactly
when whole-list constraints exist, the variable is CSP-eligible
(`can_use_with_constraint`), and the domain size is below `max_domain_size`;
and on that strategy, whenever the complete enumeration of candidate
extensions of the current prefix yields zero surviving lists, the sampling
call raises the randomization-exhausted error immediately - for every random
stream and without any retry. -/
theorem c6_csp_strategy_condition_and_immediate_failure (v : RandVar) :
    (use_csp v = true ↔
      (v.list_constraints ≠ [] ∧ v.can_use_with_constraint = true
        ∧ v.domainLen < v.max_domain_size))
    ∧ (∀ cons check i rem values st,
        getSolutions (v.domainList.map (fun x => values ++ [x]))
            v.list_constraints = [] →
        (listLoop v cons check true i (rem + 1) values st).1
          = .error .RandomizationError) := by
  constructor
  · simp only [use_csp, Bool.and_eq_true, decide_eq_true_eq]
    constructor
    · rintro ⟨⟨h1, h2⟩, h3⟩
      exact ⟨List.ne_nil_of_length_pos h1, h2, h3⟩
    · rintro ⟨h1, h2, h3⟩
      exact ⟨⟨List.length_pos.mpr h1, h2⟩, h3⟩
  · intro cons check i rem values st hS
    rw [listLoop]
    rw [if_pos rfl]
    rw [if_pos (by simp [hS])]

/-- C6 witness: `c6var` (length 2, CSP-eligible singleton domain, whole-list
constraint rejecting everything) selects the CSP strategy, and its first
step's empty enumeration raises immediately on the all-threes stream. -/
theorem c6_csp_witness :
    (use_csp c6var = true ↔
      (c6var.list_constraints ≠ [] ∧ c6var.can_use_with_constraint = true
        ∧ c6var.domainLen < c6var.max_domain_size))
    ∧ (listLoop c6var [] false true 0 1 [] st3).1 = .error .RandomizationError :=
  ⟨(c6_csp_strategy_condition_and_immediate_failure c6var).1,
   (c6_csp_strategy_condition_and_immediate_failure c6var).2 [] false 0 0 [] st3 rfl⟩

/-- C7: in the retry-per-element list strategy the first position is never
validated against whole-list constraints - the step at position 0 accepts
whatever scalar-constrained draw `randomize_once` produced and moves on,
whatever the whole-list constraints are - while the retry loop used at every
later position only ever returns a candidate whose list-so-far-plus-candidate
satisfies every whole-list constraint. -/
theorem c7_first_element_exempt_later_validated (v : RandVar)
    (cons : List (Int → Bool)) (check : Bool) :
    (∀ st rem nv st1, randomize_once v cons check st = (.ok nv, st1) →
      listLoop v cons check false 0 (rem + 1) [] st
        = listLoop v cons check false 1 rem [nv] st1)
    ∧ (∀ values fuel cand st nv' st',
        listRetryLoop v cons check values fuel cand st = (.ok nv', st') →
        v.list_constraints.all (fun c => c (values ++ [nv'])) = true) := by
  constructor
  · intro st rem nv st1 h
    rw [listLoop]
    rw [if_neg (by simp)]
    rw [h]
    dsimp only
    rw [if_pos (Or.inr rfl)]
    rfl
  · intro values fuel cand st nv' st' h
    exact listRetryLoop_ok v cons check values fuel cand st nv' st' h

/-- C7 witness: for `c7var` the position-0 step reduces to the continuation
with the raw draw `5` appended despite the whole-list constraints, and the
retry loop's accepted value satisfies the whole-list constraint on `[5]`. -/
theorem c7_first_element_witness :
    listLoop c7var [] false false 0 1 [] st0
      = listLoop c7var [] false false 1 0 [5] st0'
    ∧ c7var.list_constraints.all (fun c => c ([] ++ [5])) = true :=
  ⟨(c7_first_element_exempt_later_validated c7var [] false).1 st0 0 5 st0' rfl,
   (c7_first_element_exempt_later_validated c7var [] false).2 [] 1 5 st0 5 st0 rfl⟩

/-- C8: a sampling call never mutates the variable - the embedding threads
the `RandVar` through `randomize` and returns it unchanged from every
branch, success or error, with or without transient constraints - and a
partially built list is never returned: an error result carries no list at
all, and a returned list always has exactly the declared length. -/
theorem c8_sampling_no_mutation_no_partial_list (v : RandVar)
    (temp : Option (List (Int → Bool))) (st : RandState) :
    (randomize v temp st).2.1 = v
    ∧ (∀ xs, (randomize v temp st).1 = .ok (.list xs) → xs.length = v.length) := by
  constructor
  · simp only [randomize]
    split
    · split <;> rfl
    · split
      · split <;> rfl
      · split <;> rfl
  · intro xs hok
    simp only [randomize] at hok
    by_cases h0 : v.length = 0
    · rw [if_pos h0] at hok
      split at hok
      · simp at hok
      · simp at hok
    · rw [if_neg h0] at hok
      by_cases h1 : v.length = 1
      · rw [if_pos h1] at hok
        split at hok
        · rename_i x st2 heq
          have : [x] = xs := by simpa using hok
          rw [← this, h1]
          rfl
        · simp at hok
      · rw [if_neg h1] at hok
        split at hok
        · rename_i xs0 st2 heq
          have hx : xs0 = xs := by simpa using hok
          have := listLoop_len v _ _ _ v.length 0 [] st xs0 st2 heq
          simp only [List.length_nil, Nat.zero_add] at this
          rw [← hx]
          exact this
        · simp at hok

/-- C8 witness: sampling `c8var` (length 2) on the all-zero stream leaves the
variable unchanged, and the returned list `[7, 7]` has the declared length. -/
theorem c8_sampling_witness :
    (randomize c8var none st0).2.1 = c8var ∧ ([7, 7] : List Int).length = c8var.length :=
  ⟨(c8_sampling_no_mutation_no_partial_list c8var none st0).1,
   (c8_sampling_no_mutation_no_partial_list c8var none st0).2 [7, 7] rfl⟩

/-- C9: supplying an `args` tuple without a generator function makes
construction raise (one of the two `assert` statements fires: either the
domain/bits/fn exclusivity check or the `args has no effect without fn`
check), even when a valid domain or bit-width is supplied. -/
theorem c9_args_without_fn_raises (cfg : RandCfg) (hfn : cfg.fn? = none)
    (hargs : cfg.args?.isSome = true) : (RandVar.init cfg).isOk = false := by
  simp only [RandVar.init]
  by_cases hx : (!((cfg.domain?.isSome != cfg.fn?.isSome) != cfg.bits?.isSome)) = true
  · rw [if_pos hx]
    rfl
  · rw [if_neg hx]
    have hc : (cfg.fn?.isNone && cfg.args?.isSome) = true := by
      rw [hfn, hargs]
      rfl
    rw [if_pos hc]
    rfl

/-- C9 witness: `c9cfg` (valid domain, no `fn`, empty `args` tuple) fails to
construct. -/
theorem c9_args_witness : (RandVar.init c9cfg).isOk = false :=
  c9_args_without_fn_raises c9cfg rfl rfl

/-- C10: with constraint checking required and `max_iterations` equal to 0, a
scalar sampling call whose raw draw succeeds raises the
randomization-exhausted error unconditionally, before the drawn candidate is
ever validated - the statement holds for every constraint set, including ones
the candidate satisfies. -/
theorem c10_zero_budget_raises_before_validation (v : RandVar)
    (cons : List (Int → Bool)) (st : RandState) (value : Int) (st1 : RandState)
    (hmi : v.max_iterations = 0)
    (hdraw : v.randomizer.run st = (.ok value, st1)) :
    (randomize_once v cons true st).1 = .error .RandomizationError := by
  simp only [randomize_once, hdraw]
  rw [hmi]
  rfl

/-- C10 witness: `c10var` (budget 0) on the all-zero stream draws `0`, which
satisfies its constraint set `[fun _ => true]`, yet sampling raises. -/
theorem c10_zero_budget_witness :
    (randomize_once c10var [fun _ => true] true st0).1 = .error .RandomizationError :=
  c10_zero_budget_raises_before_validation c10var [fun _ => true] st0 0
    ⟨fun _ => 0, 1⟩ rfl rfl
